import Mathlib

/-!
Verification of the `labl` GitHub-labels CLI against its specification.

The TypeScript sources are shallowly embedded: JavaScript strings become
`String`, the dynamically-keyed options object of `parseArgs` becomes a
function `String → Option OptVal` (later assignments overwrite earlier
ones, as for a JS object), network calls become oracle functions returning
`Except String _`, and every observable effect (API call, stdout line,
stderr line, file write, `process.exit`) is collected explicitly.
-/

namespace Labl

/-- A value stored in the CLI options object: either a string taken from the
following argv token, or the boolean marker `true` (`options[key] = true`). -/
inductive OptVal where
  | str (s : String)
  | flag
deriving DecidableEq, Repr

/-- The options object of `parseArgs`: a JS object keyed by strings. -/
def Options := String → Option OptVal

/-- The empty options object `{}`. -/
def Options.empty : Options := fun _ => none

/-- JS property assignment `options[key] = v`. -/
def Options.set (m : Options) (k : String) (v : OptVal) : Options :=
  fun k2 => if k2 = k then some v else m k2

/-- JS truthiness of `options.key`: `undefined` is falsy, the empty string is
falsy, any other string is truthy, the boolean marker `true` is truthy. -/
def truthy : Option OptVal → Bool
  | none => false
  | some (.str s) => s ≠ ""
  | some .flag => true

/-- JS truthiness of a possibly-undefined string (such as an environment
variable). -/
def truthyStr : Option String → Bool
  | none => false
  | some s => s ≠ ""

/-- JS `a || b` on option values. -/
def jsOr (a b : Option OptVal) : Option OptVal :=
  if truthy a then a else b

/-- String rendering of an option value, as a JS template literal or string
context would render it (the boolean `true` prints as "true"). -/
def OptVal.render : OptVal → String
  | .str s => s
  | .flag => "true"

/-- Rendering of a possibly-undefined option value. -/
def renderOpt : Option OptVal → String
  | some v => v.render
  | none => "undefined"

/-- JS `s.includes(pat)`: substring containment. -/
def jsIncludes (s pat : String) : Bool :=
  decide (pat.data <:+: s.data)

/-- JS `s.startsWith(p)`. -/
def jsStartsWith (s p : String) : Bool :=
  decide (p.data <+: s.data)

/-- JS `s.slice(n)` for a nonnegative `n`. -/
def jsSlice (s : String) (n : Nat) : String :=
  ⟨s.data.drop n⟩

/-- The option-scanning loop of `parseArgs` (src/cli.ts lines 12-24): each
token starting with `--` becomes a key; a following token that is truthy and
does not itself start with `--` is consumed as the value, otherwise the key
is set to the boolean marker `true`. -/
def parseOpts : Options → List String → Options
  | m, [] => m
  | m, [a] =>
    if jsStartsWith a "--" then m.set (jsSlice a 2) .flag else m
  | m, a :: v :: rest2 =>
    if jsStartsWith a "--" then
      if v ≠ "" ∧ ¬ jsStartsWith v "--" then
        parseOpts (m.set (jsSlice a 2) (.str v)) rest2
      else
        parseOpts (m.set (jsSlice a 2) .flag) (v :: rest2)
    else
      parseOpts m (v :: rest2)

/-- Model of `parseArgs` (src/cli.ts lines 4-27): the first token is the command, the
remaining tokens are scanned for `--` options. An empty argv throws. -/
def parseArgs (args : List String) : Except String (String × Options) :=
  match args with
  | [] => .error "No command provided"
  | "" :: _ => .error "No command provided"
  | command :: rest => .ok (command, parseOpts Options.empty rest)

/-! ## Data model (src/types.ts) -/

/-- A remote label (src/types.ts `Label`). -/
structure Label where
  id : Nat
  node_id : String
  url : String
  name : String
  color : String
  deflt : Bool
  description : Option String
deriving DecidableEq, Repr

/-- Request body `CreateLabelRequest` (src/types.ts). -/
structure CreateLabelRequest where
  name : String
  color : String
  description : Option String
deriving DecidableEq, Repr

/-- Request body `UpdateLabelRequest` (src/types.ts): a sparse patch. -/
structure UpdateLabelRequest where
  name : Option String
  color : Option String
  description : Option String
deriving DecidableEq, Repr

/-! ## Percent-encoding (`encodeURIComponent` as used in src/api.ts)

`encodeURIComponent` leaves the unreserved ASCII characters
`A-Z a-z 0-9 - _ . ! ~ * apostrophe ( )` intact and replaces every other UTF-8 byte
by `%` followed by two uppercase hex digits. We model it at the byte level
(`Nat` values < 256) and render the result as a `String` at the end. -/

/-- Is `b` one of the bytes `encodeURIComponent` leaves unescaped? -/
def isUnreservedByte (b : Nat) : Bool :=
  (65 ≤ b && b ≤ 90) || (97 ≤ b && b ≤ 122) || (48 ≤ b && b ≤ 57) ||
    b == 45 || b == 95 || b == 46 || b == 33 || b == 126 ||
    b == 42 || b == 39 || b == 40 || b == 41

/-- The byte of the uppercase hex digit for `n < 16`. -/
def hexDigitByte (n : Nat) : Nat :=
  if n < 10 then 48 + n else 55 + n

/-- Percent-encode one byte: unreserved bytes stand for themselves, every
other byte becomes `%XY` (37 is the byte of the percent sign). -/
def percentEncodeByte (b : Nat) : List Nat :=
  if isUnreservedByte b then [b]
  else [37, hexDigitByte (b / 16), hexDigitByte (b % 16)]

/-- Percent-encode a byte sequence. -/
def percentEncodeBytes (bs : List Nat) : List Nat :=
  bs.flatMap percentEncodeByte

/-- UTF-8 encoding of a single character. -/
def utf8Bytes (c : Char) : List Nat :=
  let n := c.toNat
  if n < 128 then [n]
  else if n < 2048 then [192 + n / 64, 128 + n % 64]
  else if n < 65536 then [224 + n / 4096, 128 + (n / 64) % 64, 128 + n % 64]
  else [240 + n / 262144, 128 + (n / 4096) % 64, 128 + (n / 64) % 64, 128 + n % 64]

/-- The UTF-8 byte sequence of a string. -/
def strBytes (s : String) : List Nat :=
  s.data.flatMap utf8Bytes

/-- Model of `encodeURIComponent(s)`: percent-encode the UTF-8 bytes of `s` and read
the (all-ASCII) result back as a string. -/
def encodeURIComponent (s : String) : String :=
  ⟨(percentEncodeBytes (strBytes s)).map Char.ofNat⟩

/-- The numeric value of a hex-digit byte (both cases accepted). -/
def hexVal (b : Nat) : Option Nat :=
  if 48 ≤ b ∧ b ≤ 57 then some (b - 48)
  else if 65 ≤ b ∧ b ≤ 70 then some (b - 55)
  else if 97 ≤ b ∧ b ≤ 102 then some (b - 87)
  else none

/-- Percent-decoding of a byte sequence: `%XY` becomes the byte `16*X + Y`,
every other byte stands for itself; a malformed escape fails. -/
def percentDecodeBytes : List Nat → Option (List Nat)
  | [] => some []
  | c :: rest =>
    if c = 37 then
      match rest with
      | h :: l :: rest2 =>
        match hexVal h, hexVal l with
        | some a, some b => (percentDecodeBytes rest2).map (fun t => (16 * a + b) :: t)
        | _, _ => none
      | _ => none
    else
      (percentDecodeBytes rest).map (fun t => c :: t)

/-! ## Remote client (src/api.ts `GitHubLabelsAPI`) -/

/-- The path of `GET /repos/{owner}/{repo}/labels/{encodeURIComponent(name)}`
built by `getLabel` (src/api.ts line 50). -/
def getLabelEndpoint (owner repo name : String) : String :=
  "/repos/" ++ owner ++ "/" ++ repo ++ "/labels/" ++ encodeURIComponent name

/-- The path built by `updateLabel` (src/api.ts line 54). -/
def updateLabelEndpoint (owner repo name : String) : String :=
  "/repos/" ++ owner ++ "/" ++ repo ++ "/labels/" ++ encodeURIComponent name

/-- The path built by `deleteLabel` (src/api.ts line 58). -/
def deleteLabelEndpoint (owner repo name : String) : String :=
  "/repos/" ++ owner ++ "/" ++ repo ++ "/labels/" ++ encodeURIComponent name

/-- An observable network call made through `GitHubLabelsAPI`. Each
constructor records the arguments the handler passed to the client. -/
inductive ApiCall where
  | list (owner repo : String)
  | create (owner repo : String) (req : CreateLabelRequest)
  | get (owner repo name : String)
  | update (owner repo name : String) (req : UpdateLabelRequest)
  | delete (owner repo name : String)
deriving DecidableEq, Repr

/-- The remote behaviour, abstracted as oracles: each operation either
returns a value or fails with the message of the thrown `Error` (which for a
non-2xx response carries status and body text, src/api.ts line 35). -/
structure Api where
  listLabels : String → String → Except String (List Label)
  createLabel : String → String → CreateLabelRequest → Except String Label
  getLabel : String → String → String → Except String Label
  updateLabel : String → String → String → UpdateLabelRequest → Except String Label
  deleteLabel : String → String → String → Except String Unit

/-- How a handler invocation ends: normal return, `process.exit(code)`, or
an exception propagating to the caller. -/
inductive Outcome where
  | ok
  | exited (code : Nat)
  | threw (msg : String)
deriving DecidableEq, Repr

/-- The observable effects of one handler run: network calls, stdout lines,
stderr lines, and file writes (path, content). -/
structure Effects where
  calls : List ApiCall
  out : List String
  err : List String
  writes : List (String × String)
deriving DecidableEq, Repr

def Effects.none : Effects := ⟨[], [], [], []⟩

def Effects.append (a b : Effects) : Effects :=
  ⟨a.calls ++ b.calls, a.out ++ b.out, a.err ++ b.err, a.writes ++ b.writes⟩

/-- Effects consisting of a single stderr line. -/
def Effects.errLine (msg : String) : Effects := ⟨[], [], [msg], []⟩

/-! ## Single-item handlers (src/cli.ts lines 69-135, src/actions/) -/

/-- Model of `handleList` (src/cli.ts lines 69-75). -/
def handleList (api : Api) (owner repo : String) : Effects × Outcome :=
  match api.listLabels owner repo with
  | .error e => ⟨⟨[.list owner repo], [], [], []⟩, .threw e⟩
  | .ok labels =>
    ⟨⟨[.list owner repo],
      "Labels:" ::
        labels.map (fun l =>
          "- " ++ l.name ++ " (" ++ l.color ++ ") " ++
            (match l.description with
             | some d => if d ≠ "" then "- " ++ d else ""
             | none => "")),
      [], []⟩, .ok⟩

/-- Model of `handleCreate` (src/cli.ts lines 77-89). -/
def handleCreate (api : Api) (owner repo : String) (options : Options) :
    Effects × Outcome :=
  let name := options "name"
  let color := options "color"
  let description := options "description"
  if ¬ (truthy name ∧ truthy color) then
    ⟨.errLine "Error: --name and --color are required for create command.", .exited 1⟩
  else
    let req : CreateLabelRequest :=
      ⟨renderOpt name, renderOpt color, description.map OptVal.render⟩
    match api.createLabel owner repo req with
    | .error e => ⟨⟨[.create owner repo req], [], [], []⟩, .threw e⟩
    | .ok l =>
      ⟨⟨[.create owner repo req],
        ["Created label: " ++ l.name ++ " (" ++ l.color ++ ")"], [], []⟩, .ok⟩

/-- Model of `handleGet` (src/cli.ts lines 91-103). -/
def handleGet (api : Api) (owner repo : String) (options : Options) :
    Effects × Outcome :=
  let name := options "name"
  if ¬ truthy name then
    ⟨.errLine "Error: --name is required for get command.", .exited 1⟩
  else
    match api.getLabel owner repo (renderOpt name) with
    | .error e => ⟨⟨[.get owner repo (renderOpt name)], [], [], []⟩, .threw e⟩
    | .ok l =>
      ⟨⟨[.get owner repo (renderOpt name)],
        ["Label: " ++ l.name, "Color: " ++ l.color,
         "Description: " ++ (match l.description with
           | some d => if d ≠ "" then d else "None"
           | none => "None"),
         "Default: " ++ (if l.deflt then "true" else "false")], [], []⟩, .ok⟩

/-- Model of `handleUpdate` (src/cli.ts lines 105-124, src/actions/handle-update.ts):
builds a sparse patch from the truthy mutation options (`--description` is
included whenever defined) and rejects an empty patch before any call. -/
def handleUpdate (api : Api) (owner repo : String) (options : Options) :
    Effects × Outcome :=
  let name := options "name"
  if ¬ truthy name then
    ⟨.errLine "Error: --name is required for update command.", .exited 1⟩
  else
    let updates : UpdateLabelRequest :=
      ⟨if truthy (options "newName") then some (renderOpt (options "newName")) else none,
       if truthy (options "color") then some (renderOpt (options "color")) else none,
       (options "description").map OptVal.render⟩
    if updates.name = none ∧ updates.color = none ∧ updates.description = none then
      ⟨.errLine "Error: At least one update option (--new-name, --color, or --description) is required.",
       .exited 1⟩
    else
      match api.updateLabel owner repo (renderOpt name) updates with
      | .error e => ⟨⟨[.update owner repo (renderOpt name) updates], [], [], []⟩, .threw e⟩
      | .ok l =>
        ⟨⟨[.update owner repo (renderOpt name) updates],
          ["Updated label: " ++ l.name ++ " (" ++ l.color ++ ")"], [], []⟩, .ok⟩

/-- Model of `handleDelete` (src/cli.ts lines 126-135, src/actions/handle-delete.ts):
deletes by name and echoes the original (unencoded) name. -/
def handleDelete (api : Api) (owner repo : String) (options : Options) :
    Effects × Outcome :=
  let name := options "name"
  if ¬ truthy name then
    ⟨.errLine "Error: --name is required for delete command.", .exited 1⟩
  else
    match api.deleteLabel owner repo (renderOpt name) with
    | .error e => ⟨⟨[.delete owner repo (renderOpt name)], [], [], []⟩, .threw e⟩
    | .ok _ =>
      ⟨⟨[.delete owner repo (renderOpt name)],
        ["Deleted label: " ++ renderOpt name], [], []⟩, .ok⟩

/-! ## Batch handlers (copy, clear, import, export) -/

/-- Aggregate tallies of one batch run. -/
structure BatchCounts where
  successCount : Nat
  skipCount : Nat
  errorCount : Nat
deriving DecidableEq, Repr

/-- The per-item loop of `handleCopy` (part_005 lines 139-154): one create
attempt per label, failures caught, counted and logged without aborting. -/
def copyLoop (api : Api) (toOwner toRepo : String) :
    List Label → Effects × Nat × Nat
  | [] => ⟨Effects.none, 0, 0⟩
  | l :: rest =>
    let req : CreateLabelRequest := ⟨l.name, l.color, l.description⟩
    let head : Effects × Nat × Nat :=
      match api.createLabel toOwner toRepo req with
      | .ok _ =>
        ⟨⟨[.create toOwner toRepo req], ["✓ Copied label: " ++ l.name], [], []⟩, 1, 0⟩
      | .error msg =>
        ⟨⟨[.create toOwner toRepo req], [],
          ["✗ Failed to copy label \"" ++ l.name ++ "\": " ++ msg], []⟩, 0, 1⟩
    let tail := copyLoop api toOwner toRepo rest
    ⟨head.1.append tail.1, head.2.1 + tail.2.1, head.2.2 + tail.2.2⟩

/-- Model of `handleCopy` (part_005 lines 106-161, identical in part_001): resolves
the source pair with fallback to the generic owner and repo options,
validates both pairs, fetches the source list, filters out default labels
and copies the rest. -/
def handleCopy (api : Api) (options : Options) : Effects × Outcome :=
  let fromOwner := jsOr (options "fromOwner") (options "owner")
  let fromRepo := jsOr (options "fromRepo") (options "repo")
  let toOwner := options "toOwner"
  let toRepo := options "toRepo"
  if ¬ (truthy fromOwner ∧ truthy fromRepo) then
    ⟨.errLine "Error: Source repository required. Use --from-owner and --from-repo, or --owner and --repo for source.",
     .exited 1⟩
  else if ¬ (truthy toOwner ∧ truthy toRepo) then
    ⟨.errLine "Error: Destination repository required. Use --to-owner and --to-repo.", .exited 1⟩
  else
    let fo := renderOpt fromOwner
    let fr := renderOpt fromRepo
    let t := renderOpt toOwner
    let tr := renderOpt toRepo
    let copyingMsg := "Copying labels from " ++ fo ++ "/" ++ fr ++ " to " ++ t ++ "/" ++ tr ++ "..."
    match api.listLabels fo fr with
    | .error e =>
      ⟨⟨[.list fo fr], [copyingMsg], ["Error copying labels: " ++ e], []⟩, .exited 1⟩
    | .ok sourceLabels =>
      let customLabels := sourceLabels.filter (fun l => !l.deflt)
      let r := copyLoop api t tr customLabels
      ⟨⟨.list fo fr :: r.1.calls,
        copyingMsg ::
          ("Found " ++ toString sourceLabels.length ++ " labels in source repository.") ::
          ("Copying " ++ toString customLabels.length ++ " custom labels...") ::
          r.1.out ++
          ["\nCopy completed: " ++ toString r.2.1 ++ " successful, " ++
            toString r.2.2 ++ " failed."],
        r.1.err, []⟩, .ok⟩

/-- The per-item loop of `handleClear` (part_002 lines 32-43): one delete
attempt per label, failures caught, counted and logged without aborting. -/
def clearLoop (api : Api) (owner repo : String) :
    List Label → Effects × Nat × Nat
  | [] => ⟨Effects.none, 0, 0⟩
  | l :: rest =>
    let head : Effects × Nat × Nat :=
      match api.deleteLabel owner repo l.name with
      | .ok _ =>
        ⟨⟨[.delete owner repo l.name], ["✓ Deleted label: " ++ l.name], [], []⟩, 1, 0⟩
      | .error msg =>
        ⟨⟨[.delete owner repo l.name], [],
          ["✗ Failed to delete label \"" ++ l.name ++ "\": " ++ msg], []⟩, 0, 1⟩
    let tail := clearLoop api owner repo rest
    ⟨head.1.append tail.1, head.2.1 + tail.2.1, head.2.2 + tail.2.2⟩

/-- Model of `handleClear` (part_002): validates owner/repo, fetches the full label
list, short-circuits on an empty list, otherwise deletes every label. -/
def handleClear (api : Api) (options : Options) : Effects × Outcome :=
  let owner := options "owner"
  let repo := options "repo"
  if ¬ (truthy owner ∧ truthy repo) then
    ⟨.errLine "Error: --owner and --repo are required for clear command.", .exited 1⟩
  else
    let o := renderOpt owner
    let r := renderOpt repo
    let clearingMsg := "Clearing all labels from " ++ o ++ "/" ++ r ++ "..."
    match api.listLabels o r with
    | .error e =>
      ⟨⟨[.list o r], [clearingMsg], ["Error clearing labels: " ++ e], []⟩, .exited 1⟩
    | .ok labels =>
      let foundMsg := "Found " ++ toString labels.length ++ " labels in repository."
      if labels.length = 0 then
        ⟨⟨[.list o r], [clearingMsg, foundMsg, "No labels to delete."], [], []⟩, .ok⟩
      else
        let res := clearLoop api o r labels
        ⟨⟨.list o r :: res.1.calls,
          clearingMsg :: foundMsg ::
            ("Deleting " ++ toString labels.length ++ " labels (including default GitHub labels)...") ::
            res.1.out ++
            ["\nClear completed: " ++ toString res.2.1 ++ " successful, " ++
              toString res.2.2 ++ " failed."],
          res.1.err, []⟩, .ok⟩

/-- A label decoded from an import snapshot (part_005 `LabelImport`): the
`default` flag may be absent. -/
structure LabelImport where
  name : String
  color : String
  description : Option String
  deflt : Option Bool
deriving DecidableEq, Repr

/-- Classification of one imported label. -/
inductive ImportOutcome where
  | success
  | skipped
  | failed
deriving DecidableEq, Repr

/-- The body of the import loop for one label (part_005 lines 50-78): a
default-flagged label that a `get` lookup finds in the target is skipped
without a create; otherwise a create is attempted, and a create failure
whose message contains "already_exists" is reclassified as a skip. -/
def importStep (api : Api) (owner repo : String) (l : LabelImport) :
    Effects × ImportOutcome :=
  let req : CreateLabelRequest := ⟨l.name, l.color, l.description⟩
  let doCreate : List ApiCall → Effects × ImportOutcome := fun pre =>
    match api.createLabel owner repo req with
    | .ok _ =>
      ⟨⟨pre ++ [.create owner repo req], ["✓ Imported label: " ++ l.name], [], []⟩, .success⟩
    | .error msg =>
      if jsIncludes msg "already_exists" then
        ⟨⟨pre ++ [.create owner repo req], ["✓ Skipped existing label: " ++ l.name], [], []⟩,
         .skipped⟩
      else
        ⟨⟨pre ++ [.create owner repo req], [],
          ["✗ Failed to import label \"" ++ l.name ++ "\": " ++ msg], []⟩, .failed⟩
  if l.deflt = some true then
    match api.getLabel owner repo l.name with
    | .ok _ =>
      ⟨⟨[.get owner repo l.name],
        ["✓ Skipped default label: " ++ l.name ++ " (already exists)"], [], []⟩, .skipped⟩
    | .error _ => doCreate [.get owner repo l.name]
  else doCreate []

/-- Add one classified outcome to the running tallies. -/
def BatchCounts.bump (c : BatchCounts) : ImportOutcome → BatchCounts
  | .success => { c with successCount := c.successCount + 1 }
  | .skipped => { c with skipCount := c.skipCount + 1 }
  | .failed => { c with errorCount := c.errorCount + 1 }

/-- The per-label loop of `handleImport` (part_005 lines 46-79), applied to
the decoded label list. -/
def importLoop (api : Api) (owner repo : String) :
    List LabelImport → Effects × BatchCounts
  | [] => ⟨Effects.none, ⟨0, 0, 0⟩⟩
  | l :: rest =>
    let head := importStep api owner repo l
    let tail := importLoop api owner repo rest
    ⟨head.1.append tail.1, (tail.2.bump head.2)⟩

/-- One entry of an export snapshot (part_001 lines 221-226). -/
structure ExportedLabel where
  name : String
  color : String
  description : Option String
  deflt : Bool
deriving DecidableEq, Repr

/-- The export snapshot `{repository, exportedAt, labels}` (part_001
lines 218-227). -/
structure ExportSnapshot where
  repository : String
  exportedAt : String
  labels : List ExportedLabel
deriving DecidableEq, Repr

/-- Model of `handleExport` (part_001 lines 201-249): fetches the label list and
writes the snapshot to `.json/<repo>.json`. JSON serialization and the
current time are external collaborators, passed in as `jsonOf` and `now`. -/
def handleExport (api : Api) (jsonOf : ExportSnapshot → String) (now : String)
    (options : Options) : Effects × Outcome :=
  let owner := options "owner"
  let repo := options "repo"
  if ¬ (truthy owner ∧ truthy repo) then
    ⟨.errLine "Error: --owner and --repo are required for export command.", .exited 1⟩
  else
    let o := renderOpt owner
    let r := renderOpt repo
    let exportingMsg := "Exporting labels from " ++ o ++ "/" ++ r ++ "..."
    match api.listLabels o r with
    | .error e =>
      ⟨⟨[.list o r], [exportingMsg], ["Error exporting labels: " ++ e], []⟩, .exited 1⟩
    | .ok labels =>
      let snapshot : ExportSnapshot :=
        ⟨o ++ "/" ++ r, now,
         labels.map (fun l => ⟨l.name, l.color, l.description, l.deflt⟩)⟩
      let filepath := ".json/" ++ r ++ ".json"
      ⟨⟨[.list o r],
        [exportingMsg,
         "Found " ++ toString labels.length ++ " labels in repository.",
         "✓ Exported " ++ toString labels.length ++ " labels to " ++ filepath,
         "✓ File saved: " ++ filepath],
        [],
        [(".json/.gitkeep", ""), (filepath, jsonOf snapshot)]⟩, .ok⟩

/-! ## Command dispatch -/

/-- The missing-credential error message shared by every dispatcher. -/
def tokenErrorMsg : String :=
  "Error: GitHub token is required. Set GITHUB_TOKEN environment variable or use --token option."

/-- Model of `runCommand` (src/cli.ts lines 29-67): resolves the credential (the
environment variable takes precedence over the `--token` option), requires
owner and repo, then dispatches the five single-item commands. `env` is the
value of `GITHUB_TOKEN`. -/
def runCommand (env : Option String) (api : Api) (command : String)
    (options : Options) : Effects × Outcome :=
  if ¬ (truthyStr env || truthy (options "token")) then
    ⟨.errLine tokenErrorMsg, .exited 1⟩
  else if ¬ (truthy (options "owner") ∧ truthy (options "repo")) then
    ⟨.errLine "Error: --owner and --repo are required.", .exited 1⟩
  else
    let owner := renderOpt (options "owner")
    let repo := renderOpt (options "repo")
    match command with
    | "list" => handleList api owner repo
    | "create" => handleCreate api owner repo options
    | "get" => handleGet api owner repo options
    | "update" => handleUpdate api owner repo options
    | "delete" => handleDelete api owner repo options
    | _ =>
      ⟨⟨[], ["<usage>"], ["Unknown command: " ++ command], []⟩, .exited 1⟩

/-- Model of the `runCommand` variant with bulk commands (part_001 lines 30-77):
after the credential check, `copy` and `export` are dispatched before the
owner/repo requirement; the remaining commands go through it. -/
def runCommandV2 (env : Option String) (api : Api)
    (jsonOf : ExportSnapshot → String) (now : String) (command : String)
    (options : Options) : Effects × Outcome :=
  if ¬ (truthyStr env || truthy (options "token")) then
    ⟨.errLine tokenErrorMsg, .exited 1⟩
  else if command = "copy" then handleCopy api options
  else if command = "export" then handleExport api jsonOf now options
  else if ¬ (truthy (options "owner") ∧ truthy (options "repo")) then
    ⟨.errLine "Error: --owner and --repo are required.", .exited 1⟩
  else
    let owner := renderOpt (options "owner")
    let repo := renderOpt (options "repo")
    match command with
    | "list" => handleList api owner repo
    | "create" => handleCreate api owner repo options
    | "get" => handleGet api owner repo options
    | "update" => handleUpdate api owner repo options
    | "delete" => handleDelete api owner repo options
    | _ =>
      ⟨⟨[], ["<usage>"], ["Unknown command: " ++ command], []⟩, .exited 1⟩

/-- The argv pipeline for the `copy` command: `parseArgs` followed by the
dispatch of part_001, as wired by the entry point (part_000 lines 264-278). -/
def copyPipeline (env : Option String) (api : Api)
    (jsonOf : ExportSnapshot → String) (now : String) (args : List String) :
    Effects × Outcome :=
  match parseArgs args with
  | .error e => ⟨.errLine ("Error: " ++ e), .exited 1⟩
  | .ok (command, options) =>
    runCommandV2 env api jsonOf now command options

/-- Is a recorded call a create? -/
def ApiCall.isCreateCall : ApiCall → Bool
  | .create .. => true
  | _ => false

/-! ## Helper lemmas about the batch loops -/

theorem copyLoop_calls (api : Api) (t tr : String) (ls : List Label) :
    (copyLoop api t tr ls).1.calls =
      ls.map (fun l => .create t tr ⟨l.name, l.color, l.description⟩) := by
  induction ls with
  | nil => rfl
  | cons l rest ih =>
    simp only [copyLoop]
    cases api.createLabel t tr ⟨l.name, l.color, l.description⟩ <;>
      simp [Effects.append, ih]

theorem copyLoop_counts (api : Api) (t tr : String) (ls : List Label) :
    (copyLoop api t tr ls).2.1 + (copyLoop api t tr ls).2.2 = ls.length := by
  induction ls with
  | nil => rfl
  | cons l rest ih =>
    simp only [copyLoop]
    cases api.createLabel t tr ⟨l.name, l.color, l.description⟩ <;>
      simp [ih] <;> omega

theorem clearLoop_calls (api : Api) (o r : String) (ls : List Label) :
    (clearLoop api o r ls).1.calls = ls.map (fun l => .delete o r l.name) := by
  induction ls with
  | nil => rfl
  | cons l rest ih =>
    simp only [clearLoop]
    cases api.deleteLabel o r l.name <;> simp [Effects.append, ih]

theorem clearLoop_counts (api : Api) (o r : String) (ls : List Label) :
    (clearLoop api o r ls).2.1 + (clearLoop api o r ls).2.2 = ls.length := by
  induction ls with
  | nil => rfl
  | cons l rest ih =>
    simp only [clearLoop]
    cases api.deleteLabel o r l.name <;> simp [ih] <;> omega

theorem length_filter_not_countP {α : Type} (p : α → Bool) (l : List α) :
    (l.filter fun x => !p x).length = l.length - l.countP p := by
  induction l with
  | nil => rfl
  | cons a t ih =>
    have hle := t.countP_le_length p
    by_cases h : p a <;>
      (simp [List.filter_cons, List.countP_cons, h, ih]; try omega)

/-! ## Claim theorems -/

/-- C4: for every argument environment in which both the environment
credential and the `--token` option are absent (empty or undefined), every
command — in both dispatcher versions — exits with code 1 after printing the
token error, and no client operation is made (the recorded call list is
empty). -/
theorem runCommand_no_token_exits (env : Option String) (api : Api)
    (jsonOf : ExportSnapshot → String) (now : String)
    (command : String) (options : Options)
    (henv : truthyStr env = false)
    (htok : truthy (options "token") = false) :
    runCommand env api command options = (.errLine tokenErrorMsg, .exited 1) ∧
    runCommandV2 env api jsonOf now command options = (.errLine tokenErrorMsg, .exited 1) := by
  constructor <;> simp [runCommand, runCommandV2, henv, htok]

/-- Witness for C4: the `list` command with no credential anywhere. -/
theorem runCommand_no_token_exits_witness :
    runCommand Option.none
      ⟨fun _ _ => .ok [], fun _ _ _ => .error "unused", fun _ _ _ => .error "unused",
       fun _ _ _ _ => .error "unused", fun _ _ _ => .ok ()⟩
      "list" Options.empty = (.errLine tokenErrorMsg, .exited 1) :=
  (runCommand_no_token_exits Option.none _ (fun _ => "") "" "list" Options.empty
    rfl rfl).1

/-- C5: an `update` invocation in which none of the mutation options
(`newName`, `color`, `description`) is set exits with code 1 before any
network call. -/
theorem handleUpdate_no_mutation_exits (api : Api) (owner repo : String)
    (options : Options)
    (h1 : options "newName" = none)
    (h2 : options "color" = none)
    (h3 : options "description" = none) :
    (handleUpdate api owner repo options).2 = .exited 1 ∧
    (handleUpdate api owner repo options).1.calls = [] := by
  simp only [handleUpdate, h1, h2, h3, truthy, Effects.errLine]
  split <;> simp

/-- Witness for C5: `update` with only a name set. -/
theorem handleUpdate_no_mutation_exits_witness :
    (handleUpdate
      ⟨fun _ _ => .ok [], fun _ _ _ => .error "unused", fun _ _ _ => .error "unused",
       fun _ _ _ _ => .error "unused", fun _ _ _ => .ok ()⟩
      "o" "r" (Options.empty.set "name" (.str "bug"))).2 = .exited 1 :=
  (handleUpdate_no_mutation_exits _ "o" "r" (Options.empty.set "name" (.str "bug"))
    rfl rfl rfl).1

/-- A stub remote used to evaluate pipelines at concrete inputs. -/
def stubApi : Api :=
  ⟨fun _ _ => .ok [], fun _ _ _ => .error "stub", fun _ _ _ => .error "stub",
   fun _ _ _ _ => .error "stub", fun _ _ _ => .ok ()⟩

/-- C6 (evaluation at the failing input): invoking `copy` through the CLI
exactly as the usage text of the tool documents it — source pair via the
generic owner/repo fallback, destination pair via `--to-owner`/`--to-repo` —
exits with code 1 complaining that the destination repository is missing,
and makes no network call. `parseArgs` stores the destination under the
hyphenated keys "to-owner"/"to-repo" while `handleCopy` reads the camelCase
keys "toOwner"/"toRepo", so the documented flags can never reach it. -/
theorem copyPipeline_documented_flags_rejected :
    copyPipeline Option.none stubApi (fun _ => "") ""
      ["copy", "--token", "t", "--owner", "a", "--repo", "b",
       "--to-owner", "c", "--to-repo", "d"] =
    (.errLine "Error: Destination repository required. Use --to-owner and --to-repo.",
     .exited 1) := by
  rfl

/-- The value stored for key `k` after parsing `args` (none if parsing
throws). -/
def parsedOpt (args : List String) (k : String) : Option OptVal :=
  match parseArgs args with
  | .ok p => p.2 k
  | .error _ => none

/-- C7 (counterexample to the claim as stated): the token following
`--name` in `get --name ""` exists and does not start with `--`, yet it is
not consumed as the string value of the option — the flag becomes the boolean
marker instead, because JS truthiness also rejects the empty string. -/
theorem parseArgs_empty_value_counterexample :
    parsedOpt ["get", "--name", ""] "name" = some .flag ∧
    parsedOpt ["get", "--name", ""] "name" ≠ some (.str "") := by
  decide

/-- C7 (amended): for every argument list, a token starting with `--` maps
to the option key obtained by dropping the dashes; a following token that
exists, is non-empty, and does not start with `--` is consumed as the
string value of the option; otherwise (no following token, an empty one, or one
starting with `--`) the option is set to the boolean marker `true` and the
following token is not consumed. -/
theorem parseOpts_step_spec (m : Options) (a v : String) (rest : List String) :
    (jsStartsWith a "--" = true → v ≠ "" → jsStartsWith v "--" = false →
      parseOpts m (a :: v :: rest) = parseOpts (m.set (jsSlice a 2) (.str v)) rest) ∧
    (jsStartsWith a "--" = true → (v = "" ∨ jsStartsWith v "--" = true) →
      parseOpts m (a :: v :: rest) = parseOpts (m.set (jsSlice a 2) .flag) (v :: rest)) ∧
    (jsStartsWith a "--" = true → parseOpts m [a] = m.set (jsSlice a 2) .flag) ∧
    (jsStartsWith a "--" = false → parseOpts m (a :: rest) = parseOpts m rest) := by
  refine ⟨fun h hv hv2 => ?_, fun h hv => ?_, fun h => ?_, fun h => ?_⟩
  · simp [parseOpts, h, hv, hv2]
  · rcases hv with hv | hv
    · subst hv
      simp [parseOpts, h]
    · simp [parseOpts, h, hv]
  · simp [parseOpts, h]
  · cases rest with
    | nil => simp [parseOpts, h]
    | cons v2 t => simp [parseOpts, h]

/-- Witness for the amended C7 theorem: `--name bug` consumes `bug` as the
value and stores it under key "name". -/
theorem parseOpts_step_spec_witness :
    (parseOpts Options.empty ["--name", "bug"]) "name" = some (.str "bug") := by
  rw [(parseOpts_step_spec Options.empty "--name" "bug" []).1 (by decide) (by decide)
    (by decide)]
  decide

/-- C1: in a copy run whose fetched source list is `labels` (N of them, K
marked default), exactly the N−K non-default labels are sent to create, one
call per label against the destination pair and in fetched order, and the
success and error tallies of the loop — the two numbers printed in the
terminal summary — sum to N−K. -/
theorem handleCopy_attempts (api : Api) (options : Options)
    (fo fr t tr : String) (labels : List Label)
    (hfo : jsOr (options "fromOwner") (options "owner") = some (.str fo))
    (hfo2 : fo ≠ "")
    (hfr : jsOr (options "fromRepo") (options "repo") = some (.str fr))
    (hfr2 : fr ≠ "")
    (ht : options "toOwner" = some (.str t)) (ht2 : t ≠ "")
    (htr : options "toRepo" = some (.str tr)) (htr2 : tr ≠ "")
    (hlist : api.listLabels fo fr = .ok labels) :
    (handleCopy api options).1.calls =
      .list fo fr ::
        (labels.filter fun l => !l.deflt).map
          (fun l => .create t tr ⟨l.name, l.color, l.description⟩) ∧
    (labels.filter fun l => !l.deflt).length
      = labels.length - labels.countP (fun l => l.deflt) ∧
    (copyLoop api t tr (labels.filter fun l => !l.deflt)).2.1 +
      (copyLoop api t tr (labels.filter fun l => !l.deflt)).2.2
      = labels.length - labels.countP (fun l => l.deflt) ∧
    ("\nCopy completed: " ++
        toString (copyLoop api t tr (labels.filter fun l => !l.deflt)).2.1 ++
        " successful, " ++
        toString (copyLoop api t tr (labels.filter fun l => !l.deflt)).2.2 ++
        " failed.")
      ∈ (handleCopy api options).1.out := by
  have hcalls := copyLoop_calls api t tr (labels.filter fun l => !l.deflt)
  have hcounts := copyLoop_counts api t tr (labels.filter fun l => !l.deflt)
  have hlen := length_filter_not_countP (fun l => l.deflt) labels
  simp only [handleCopy, hfo, hfr, ht, htr, truthy, renderOpt, OptVal.render,
    hlist, hfo2, hfr2, ht2, htr2]
  simp [hfo2, hfr2, ht2, htr2, hcalls, hlen, hcounts, hlen ▸ hcounts]

/-- C2: in a clear run whose fetched list is `labels` of size N, one delete
call is attempted per label in fetched order (failures counted, never
aborting), the success and error tallies sum to N, and an empty fetched
list short-circuits with the "No labels to delete." message and zero delete
calls. -/
theorem handleClear_attempts (api : Api) (options : Options)
    (o r : String) (labels : List Label)
    (ho : options "owner" = some (.str o)) (ho2 : o ≠ "")
    (hr : options "repo" = some (.str r)) (hr2 : r ≠ "")
    (hlist : api.listLabels o r = .ok labels) :
    (labels ≠ [] →
      (handleClear api options).1.calls =
        .list o r :: labels.map (fun l => .delete o r l.name) ∧
      (clearLoop api o r labels).2.1 + (clearLoop api o r labels).2.2
        = labels.length ∧
      ("\nClear completed: " ++ toString (clearLoop api o r labels).2.1 ++
          " successful, " ++ toString (clearLoop api o r labels).2.2 ++ " failed.")
        ∈ (handleClear api options).1.out) ∧
    (labels = [] →
      (handleClear api options).1.calls = [.list o r] ∧
      "No labels to delete." ∈ (handleClear api options).1.out) := by
  have hcalls := clearLoop_calls api o r labels
  have hcounts := clearLoop_counts api o r labels
  constructor
  · intro hne
    have hlen : labels.length = 0 ↔ False := by
      simp [List.length_eq_zero, hne]
    simp only [handleClear, ho, hr, truthy, renderOpt, OptVal.render, hlist]
    simp [ho2, hr2, hlen, hcalls, hcounts]
  · intro he
    subst he
    simp only [handleClear, ho, hr, truthy, renderOpt, OptVal.render, hlist]
    simp [ho2, hr2]

/-- C3: in the import loop, a label whose create call fails with a message
containing "already_exists" is classified as skipped (not failed); and a
default-flagged label that a `get` lookup finds in the target is classified
as skipped without any create call being attempted. -/
theorem importStep_skip_rules (api : Api) (o r : String) (l : LabelImport) :
    (∀ msg, api.createLabel o r ⟨l.name, l.color, l.description⟩ = .error msg →
      jsIncludes msg "already_exists" = true →
      (importStep api o r l).2 = .skipped) ∧
    (l.deflt = some true → ∀ lbl, api.getLabel o r l.name = .ok lbl →
      (importStep api o r l).2 = .skipped ∧
      (importStep api o r l).1.calls.filter ApiCall.isCreateCall = []) := by
  constructor
  · intro msg hc hinc
    by_cases hd : l.deflt = some true
    · simp only [importStep, hd, if_pos]
      cases hg : api.getLabel o r l.name with
      | ok lbl => simp
      | error e => simp [hc, hinc]
    · simp only [importStep, hd, if_neg, ite_false]
      simp [hc, hinc, hd]
  · intro hd lbl hg
    simp [importStep, hd, hg, ApiCall.isCreateCall]

/-- C10: the import loop classifies every label in exactly one of the three
tallies: success + skipped + failed equals the number of decoded labels. -/
theorem importLoop_partition (api : Api) (o r : String)
    (labels : List LabelImport) :
    (importLoop api o r labels).2.successCount +
      (importLoop api o r labels).2.skipCount +
      (importLoop api o r labels).2.errorCount = labels.length := by
  induction labels with
  | nil => rfl
  | cons l rest ih =>
    simp only [importLoop]
    cases (importStep api o r l).2 <;>
      (simp [BatchCounts.bump]; omega)

/-- A two-label source list: one default label, one custom label. -/
def demoLabels : List Label :=
  [⟨1, "n1", "u1", "bug", "d73a4a", true, none⟩,
   ⟨2, "n2", "u2", "feat", "00ff00", false, some "feature work"⟩]

/-- A remote that lists `demoLabels` and accepts every mutation. -/
def demoApi : Api :=
  ⟨fun _ _ => .ok demoLabels,
   fun _ _ req => .ok ⟨3, "n3", "u3", req.name, req.color, false, req.description⟩,
   fun _ _ _ => .error "GitHub API error: 404 Not Found",
   fun _ _ _ _ => .error "GitHub API error: 404 Not Found",
   fun _ _ _ => .ok ()⟩

/-- Options for a copy from `a/b` (via the generic owner/repo fallback) to
destination keys `toOwner`/`toRepo` = `c/d`. -/
def demoCopyOpts : Options :=
  (((Options.empty.set "owner" (.str "a")).set "repo" (.str "b")).set
    "toOwner" (.str "c")).set "toRepo" (.str "d")

/-- Witness for C1: on the two-label demo list (one default), exactly one
create call is attempted, against the destination. -/
theorem handleCopy_attempts_witness :
    (handleCopy demoApi demoCopyOpts).1.calls =
      [.list "a" "b", .create "c" "d" ⟨"feat", "00ff00", some "feature work"⟩] := by
  rw [(handleCopy_attempts demoApi demoCopyOpts "a" "b" "c" "d" demoLabels
    rfl (by decide) rfl (by decide) rfl (by decide) rfl (by decide) rfl).1]
  rfl

/-- Options naming owner `a` and repo `b`. -/
def demoClearOpts : Options :=
  (Options.empty.set "owner" (.str "a")).set "repo" (.str "b")

/-- A remote whose label list is empty. -/
def emptyListApi : Api :=
  ⟨fun _ _ => .ok [],
   fun _ _ req => .ok ⟨3, "n3", "u3", req.name, req.color, false, req.description⟩,
   fun _ _ _ => .error "GitHub API error: 404 Not Found",
   fun _ _ _ _ => .error "GitHub API error: 404 Not Found",
   fun _ _ _ => .ok ()⟩

/-- Witness for C2: the two-label list yields two delete calls, and the
empty list short-circuits with the "no labels" message and no delete. -/
theorem handleClear_attempts_witness :
    (handleClear demoApi demoClearOpts).1.calls =
      [.list "a" "b", .delete "a" "b" "bug", .delete "a" "b" "feat"] ∧
    ((handleClear emptyListApi demoClearOpts).1.calls = [.list "a" "b"] ∧
      "No labels to delete." ∈ (handleClear emptyListApi demoClearOpts).1.out) := by
  constructor
  · rw [((handleClear_attempts demoApi demoClearOpts "a" "b" demoLabels
      rfl (by decide) rfl (by decide) rfl).1 (by decide)).1]
    rfl
  · exact (handleClear_attempts emptyListApi demoClearOpts "a" "b" []
      rfl (by decide) rfl (by decide) rfl).2 rfl

/-- A remote whose create always reports the label as already existing and
whose lookup always succeeds. -/
def conflictApi : Api :=
  ⟨fun _ _ => .ok [],
   fun _ _ _ => .error "GitHub API error: 422 Validation Failed already_exists",
   fun _ _ name => .ok ⟨9, "n9", "u9", name, "ededed", true, none⟩,
   fun _ _ _ _ => .error "GitHub API error: 404 Not Found",
   fun _ _ _ => .ok ()⟩

/-- A remote whose lookup fails. -/
def missingApi : Api :=
  ⟨fun _ _ => .ok [],
   fun _ _ _ => .error "GitHub API error: 422 Validation Failed already_exists",
   fun _ _ _ => .error "GitHub API error: 404 Not Found",
   fun _ _ _ _ => .error "GitHub API error: 404 Not Found",
   fun _ _ _ => .ok ()⟩

/-- Witness for C3: a non-default label whose create reports
"already_exists" is skipped, and a default label found by lookup is skipped
with no create call. -/
theorem importStep_skip_rules_witness :
    (importStep missingApi "o" "r" ⟨"bug", "d73a4a", none, none⟩).2 = .skipped ∧
    ((importStep conflictApi "o" "r" ⟨"bug", "d73a4a", none, some true⟩).2 = .skipped ∧
      (importStep conflictApi "o" "r"
        ⟨"bug", "d73a4a", none, some true⟩).1.calls.filter ApiCall.isCreateCall = []) := by
  constructor
  · exact (importStep_skip_rules missingApi "o" "r" ⟨"bug", "d73a4a", none, none⟩).1
      "GitHub API error: 422 Validation Failed already_exists" rfl (by decide)
  · exact (importStep_skip_rules conflictApi "o" "r" ⟨"bug", "d73a4a", none, some true⟩).2
      rfl ⟨9, "n9", "u9", "bug", "ededed", true, none⟩ rfl

/-! ## Percent-encoding lemmas (for C8) -/

theorem hexVal_hexDigitByte (n : Nat) (h : n < 16) :
    hexVal (hexDigitByte n) = some n := by
  unfold hexVal hexDigitByte
  split_ifs <;> simp_all <;> omega

theorem percentByte_not_37 (b : Nat) (h : isUnreservedByte b = true) : b ≠ 37 := by
  intro e
  subst e
  simp [isUnreservedByte] at h

theorem percentDecodeBytes_cons_of_ne (c : Nat) (h : ¬ c = 37) (rest : List Nat) :
    percentDecodeBytes (c :: rest) =
      (percentDecodeBytes rest).map (fun t => c :: t) := by
  conv_lhs => rw [percentDecodeBytes.eq_def]
  simp [h]

theorem percentDecodeBytes_escape (x y : Nat) (a b : Nat) (rest : List Nat)
    (hx : hexVal x = some a) (hy : hexVal y = some b) :
    percentDecodeBytes (37 :: x :: y :: rest) =
      (percentDecodeBytes rest).map (fun t => (16 * a + b) :: t) := by
  conv_lhs => rw [percentDecodeBytes.eq_def]
  simp [hx, hy]

theorem percentDecodeBytes_encodeBytes (bs : List Nat) (h : ∀ b ∈ bs, b < 256) :
    percentDecodeBytes (percentEncodeBytes bs) = some bs := by
  induction bs with
  | nil => rfl
  | cons b rest ih =>
    have hb : b < 256 := h b (by simp)
    have hrest := ih (fun x hx => h x (by simp [hx]))
    show percentDecodeBytes (percentEncodeByte b ++ percentEncodeBytes rest) = _
    by_cases hu : isUnreservedByte b
    · have h37 := percentByte_not_37 b hu
      simp only [percentEncodeByte, hu, if_true, List.cons_append, List.nil_append]
      rw [percentDecodeBytes_cons_of_ne b h37, hrest]
      rfl
    · rw [show percentEncodeByte b = [37, hexDigitByte (b / 16), hexDigitByte (b % 16)]
        from by simp [percentEncodeByte, hu]]
      simp only [List.cons_append, List.nil_append]
      rw [percentDecodeBytes_escape (hexDigitByte (b / 16)) (hexDigitByte (b % 16))
        (b / 16) (b % 16) _ (hexVal_hexDigitByte (b / 16) (by omega))
        (hexVal_hexDigitByte (b % 16) (by omega)), hrest]
      have : 16 * (b / 16) + b % 16 = b := by omega
      rw [this]
      rfl

theorem strBytes_lt_256 (s : String) : ∀ b ∈ strBytes s, b < 256 := by
  intro b hb
  simp only [strBytes, List.mem_flatMap] at hb
  obtain ⟨c, _, hc⟩ := hb
  have hv : c.toNat < 1114112 := by
    show c.val.toNat < 1114112
    rcases c.valid with h1 | ⟨_, h2⟩ <;> omega
  simp only [utf8Bytes] at hc
  split_ifs at hc <;> simp at hc <;> omega

/-- C8: the get/update/delete request paths carry the percent-encoded form
of the label name in their final segment; the encoding is lossless (the
encoded segment percent-decodes back to the original UTF-8 bytes, so names
containing `/` or spaces survive); and the name echoed by the delete
command output is the original unencoded string. -/
theorem endpoints_encode_name (owner repo name : String) (api : Api)
    (options : Options)
    (hname : options "name" = some (.str name)) (hne : name ≠ "")
    (hdel : api.deleteLabel owner repo name = .ok ()) :
    getLabelEndpoint owner repo name =
      "/repos/" ++ owner ++ "/" ++ repo ++ "/labels/" ++ encodeURIComponent name ∧
    updateLabelEndpoint owner repo name =
      "/repos/" ++ owner ++ "/" ++ repo ++ "/labels/" ++ encodeURIComponent name ∧
    deleteLabelEndpoint owner repo name =
      "/repos/" ++ owner ++ "/" ++ repo ++ "/labels/" ++ encodeURIComponent name ∧
    percentDecodeBytes (percentEncodeBytes (strBytes name)) = some (strBytes name) ∧
    (handleDelete api owner repo options).1.out = ["Deleted label: " ++ name] := by
  refine ⟨rfl, rfl, rfl, percentDecodeBytes_encodeBytes _ (strBytes_lt_256 name), ?_⟩
  simp [handleDelete, hname, truthy, hne, renderOpt, OptVal.render, hdel]

/-- Witness for C8: the name "a b/c", containing a space and a slash. -/
theorem endpoints_encode_name_witness :
    percentDecodeBytes (percentEncodeBytes (strBytes "a b/c")) =
      some (strBytes "a b/c") ∧
    (handleDelete stubApi "o" "r"
      (Options.empty.set "name" (.str "a b/c"))).1.out =
      ["Deleted label: " ++ "a b/c"] :=
  ⟨(endpoints_encode_name "o" "r" "a b/c" stubApi
      (Options.empty.set "name" (.str "a b/c")) rfl (by decide) rfl).2.2.2.1,
   (endpoints_encode_name "o" "r" "a b/c" stubApi
      (Options.empty.set "name" (.str "a b/c")) rfl (by decide) rfl).2.2.2.2⟩

/-! ## Key-origin lemmas for the options object (for C9) -/

theorem Options.set_isSome (m : Options) (key k : String) (v : OptVal)
    (h : ((m.set key v) k).isSome) : k = key ∨ (m k).isSome := by
  by_cases hk : k = key
  · exact Or.inl hk
  · right
    simpa [Options.set, hk] using h

/-- Every key present after the option scan either was present before or
comes from an argv token `--` ++ key. -/
theorem parseOpts_key_origin (m : Options) (args : List String) (k : String)
    (h : (parseOpts m args k).isSome) :
    (m k).isSome ∨ ∃ a ∈ args, jsStartsWith a "--" = true ∧ jsSlice a 2 = k := by
  revert h
  induction m, args using parseOpts.induct with
  | case1 m => exact fun h => Or.inl h
  | case2 m a hst =>
    intro h
    rw [parseOpts] at h
    rw [if_pos hst] at h
    rcases Options.set_isSome _ _ _ _ h with hk | hm2
    · exact Or.inr ⟨a, by simp, hst, hk.symm⟩
    · exact Or.inl hm2
  | case3 m a hst =>
    intro h
    rw [parseOpts] at h
    rw [if_neg hst] at h
    exact Or.inl h
  | case4 m a v rest2 hst hv ih =>
    intro h
    rw [parseOpts] at h
    rw [if_pos hst, if_pos hv] at h
    rcases ih h with hm | ⟨b, hb, hb2⟩
    · rcases Options.set_isSome _ _ _ _ hm with hk | hm2
      · exact Or.inr ⟨a, by simp, hst, hk.symm⟩
      · exact Or.inl hm2
    · exact Or.inr ⟨b, by simp [hb], hb2⟩
  | case5 m a v rest2 hst hv ih =>
    intro h
    rw [parseOpts] at h
    rw [if_pos hst, if_neg hv] at h
    rcases ih h with hm | ⟨b, hb, hb2⟩
    · rcases Options.set_isSome _ _ _ _ hm with hk | hm2
      · exact Or.inr ⟨a, by simp, hst, hk.symm⟩
      · exact Or.inl hm2
    · exact Or.inr ⟨b, by simp [hb], hb2⟩
  | case6 m a v rest2 hst ih =>
    intro h
    rw [parseOpts] at h
    rw [if_neg hst] at h
    rcases ih h with hm | ⟨b, hb, hb2⟩
    · exact Or.inl hm
    · exact Or.inr ⟨b, by simp [hb], hb2⟩

theorem eq_dashes_append_slice (a : String) (h : jsStartsWith a "--" = true) :
    a = "--" ++ jsSlice a 2 := by
  have h2 : "--".data <+: a.data := of_decide_eq_true h
  obtain ⟨t, ht⟩ := h2
  apply String.ext
  rw [String.data_append]
  simp only [jsSlice]
  rw [← ht]
  rfl

/-- C9: a value passed via the multi-word flags is stored by the parser
under the hyphenated key (`--new-name` goes to key "new-name"), while the
handlers read only the camelCase keys (`handleUpdate` reads "newName",
`handleCopy` reads "fromOwner"/"fromRepo"/"toOwner"/"toRepo"); consequently,
for every argument list that does not literally contain a `--camelCase`
token, all five camelCase keys are absent from the parsed options and no
handler can observe a value passed via the documented hyphenated flags. -/
theorem hyphenated_flags_unobservable (args : List String) (cmd : String)
    (options : Options)
    (hp : parseArgs args = .ok (cmd, options))
    (h1 : "--newName" ∉ args) (h2 : "--fromOwner" ∉ args)
    (h3 : "--fromRepo" ∉ args) (h4 : "--toOwner" ∉ args)
    (h5 : "--toRepo" ∉ args) :
    options "newName" = none ∧ options "fromOwner" = none ∧
    options "fromRepo" = none ∧ options "toOwner" = none ∧
    options "toRepo" = none ∧
    (∀ (m : Options) (v : String) (rest : List String),
      v ≠ "" → jsStartsWith v "--" = false →
      parseOpts m ("--new-name" :: v :: rest) =
        parseOpts (m.set "new-name" (.str v)) rest) := by
  have hinv : ∃ rest, args = cmd :: rest ∧ options = parseOpts Options.empty rest := by
    rw [parseArgs.eq_def] at hp
    split at hp
    · exact absurd hp (by simp)
    · exact absurd hp (by simp)
    · rename_i command rest2 hne
      simp only [Except.ok.injEq, Prod.mk.injEq] at hp
      exact ⟨rest2, by rw [hp.1], hp.2.symm⟩
  obtain ⟨rest, hargs, hopts⟩ := hinv
  have hk : ∀ (k : String), ("--" ++ k) ∉ args → options k = none := by
    intro k hnk
    by_contra hne
    have hs : (options k).isSome := Option.ne_none_iff_isSome.mp hne
    rw [hopts] at hs
    rcases parseOpts_key_origin _ _ _ hs with hm | ⟨b, hb, hbs, hbk⟩
    · simp [Options.empty] at hm
    · have hbe : b = "--" ++ k := by rw [eq_dashes_append_slice b hbs, hbk]
      apply hnk
      rw [← hbe, hargs]
      exact List.mem_cons_of_mem _ hb
  refine ⟨hk "newName" ?_, hk "fromOwner" ?_, hk "fromRepo" ?_,
    hk "toOwner" ?_, hk "toRepo" ?_, ?_⟩
  · rw [show ("--" ++ "newName" : String) = "--newName" from rfl]; exact h1
  · rw [show ("--" ++ "fromOwner" : String) = "--fromOwner" from rfl]; exact h2
  · rw [show ("--" ++ "fromRepo" : String) = "--fromRepo" from rfl]; exact h3
  · rw [show ("--" ++ "toOwner" : String) = "--toOwner" from rfl]; exact h4
  · rw [show ("--" ++ "toRepo" : String) = "--toRepo" from rfl]; exact h5
  · intro m v rest2 hv hv2
    have hstep : parseOpts m ("--new-name" :: v :: rest2) =
        parseOpts (m.set (jsSlice "--new-name" 2) (.str v)) rest2 := by
      rw [parseOpts]
      rw [if_pos (by decide), if_pos ⟨hv, by simp [hv2]⟩]
    rw [hstep, show jsSlice "--new-name" 2 = "new-name" from by decide]

/-- Witness for C9: the documented copy-with-rename flag set; none of the
camelCase keys the handlers read is populated. -/
theorem hyphenated_flags_unobservable_witness :
    (parseOpts Options.empty
      ["--new-name", "x", "--from-owner", "a", "--from-repo", "b",
       "--to-owner", "c", "--to-repo", "d"]) "newName" = none ∧
    (parseOpts Options.empty
      ["--new-name", "x", "--from-owner", "a", "--from-repo", "b",
       "--to-owner", "c", "--to-repo", "d"]) "toOwner" = none := by
  have h := hyphenated_flags_unobservable
    ["copy", "--new-name", "x", "--from-owner", "a", "--from-repo", "b",
     "--to-owner", "c", "--to-repo", "d"] "copy"
    (parseOpts Options.empty
      ["--new-name", "x", "--from-owner", "a", "--from-repo", "b",
       "--to-owner", "c", "--to-repo", "d"])
    rfl (by decide) (by decide) (by decide) (by decide) (by decide)
  exact ⟨h.1, h.2.2.2.1⟩

end Labl
